import Mathlib

/-!
Shallow embedding of the Transaction Classification & Journal-Entry
Resolution Engine of the `bflow-ai` repository.

The embedded code lives in two source files:

* `src/bflow_ai/app/services/rag_service.py` — the MiniRAG graph builder,
  the multi-signal retriever (`MiniRAGRetriever.retrieve`), the conversation
  context (`ConversationContext.is_followup_question`), and a
  `PostingEngineResolver.resolve` without `is_lookup` output field;
* `src/bflow_ai/app/services/rag_posting_engine.py` — an SLM-first retriever
  with a keyword/embedding fallback (`MiniRAGRetriever._fallback_retrieve`)
  and a `PostingEngineResolver.resolve` that emits an `is_lookup` field.

Modelling conventions:

* The JSON configuration (`posting_engine.json`: document types, posting
  rules, GL mappings, posting groups) is not part of the repository tree, so
  every definition is parameterised by a `Config` record carrying that data;
  the fixed Python tables that are literals in the source (SYNONYMS,
  NEGATIVE_KEYWORDS, DISAMBIGUATION_RULES, CONCEPTS, TRANSACTION_NAMES,
  follow-up indicators and concept-domain lists) are transcribed verbatim.
* Python dicts are insertion-ordered association lists; `defaultdict(float)`
  update `scores[k] += v` is `sadd`; Python sets of transaction keys are
  duplicate-free lists in insertion order.
* Python floats are idealised as exact rationals (`ℚ`); every weight in the
  source (3.0, 2.0, 5.0, 0.5, 0.25) is a dyadic rational for which binary64
  arithmetic is exact at these magnitudes.  The external embedding model is
  an opaque parameter `encode : String → List ℚ`.
* Code that can raise (`max()` on an empty sequence, the `ValueError` in
  `PostingEngineResolver.resolve`) returns `Option`/`none` at the raise.
* `str.lower()` is modelled for ASCII plus the precomposed Vietnamese
  uppercase letters, which covers every string in the fixed tables.
-/

/-! ### String primitives (Python `in`, `startswith`, `replace`, `lower`) -/

/-- `charsLeads n h` is true when `n` is a leading segment of `h`. -/
def charsLeads : List Char → List Char → Bool
  | [], _ => true
  | _ :: _, [] => false
  | a :: as, b :: bs => a == b && charsLeads as bs

/-- Contiguous-substring test on character lists; the empty needle matches,
as in Python. -/
def charsHas (n : List Char) : List Char → Bool
  | [] => n.isEmpty
  | c :: t => charsLeads n (c :: t) || charsHas n t

/-- Python `needle in hay` on strings. -/
def strHas (needle hay : String) : Bool := charsHas needle.data hay.data

/-- Python `s.startswith(p)`. -/
def strStarts (p s : String) : Bool := charsLeads p.data s.data

/-- Python `source.replace("TX:", "")`: delete every (non-overlapping,
leftmost-first) occurrence of `TX:`. -/
def stripTxChars : List Char → List Char
  | 'T' :: 'X' :: ':' :: rest => stripTxChars rest
  | c :: rest => c :: stripTxChars rest
  | [] => []

/-- Python `source.replace("TX:", "")` on strings. -/
def stripTx (s : String) : String := ⟨stripTxChars s.data⟩

/-- Characters before the first occurrence of `pat` (for Python
`s.split(pat)[0]`). -/
def takeBefore (pat : List Char) : List Char → List Char
  | [] => []
  | c :: t => if charsLeads pat (c :: t) then [] else c :: takeBefore pat t

/-- Python `str.lower` for ASCII and precomposed Vietnamese uppercase
letters (Latin-1 uppercase, Ă/Đ/Ĩ/Ũ/Ơ/Ư, and the U+1EA0–U+1EF9 block). -/
def viLower (c : Char) : Char :=
  let n := c.toNat
  if 65 ≤ n ∧ n ≤ 90 then Char.ofNat (n + 32)
  else if 0xC0 ≤ n ∧ n ≤ 0xDE ∧ n ≠ 0xD7 then Char.ofNat (n + 32)
  else if n = 0x102 ∨ n = 0x110 ∨ n = 0x128 ∨ n = 0x168 ∨ n = 0x1A0 ∨ n = 0x1AF then
    Char.ofNat (n + 1)
  else if 0x1EA0 ≤ n ∧ n ≤ 0x1EF9 ∧ n % 2 = 0 then Char.ofNat (n + 1)
  else c

/-- Python `s.lower()`. -/
def lowerStr (s : String) : String := ⟨s.data.map viLower⟩

/-- Python `" ".join(parts)`. -/
def joinSpace : List String → String
  | [] => ""
  | [s] => s
  | s :: t => s ++ " " ++ joinSpace t

/-! ### Insertion-ordered dictionaries -/

/-- Python `d.get(k)` on an insertion-ordered association list. -/
def alistGet {α : Type} (m : List (String × α)) (k : String) : Option α :=
  (m.find? (fun p => p.1 == k)).map (fun p => p.2)

/-- A `defaultdict(float)` score map in insertion order. -/
abbrev Scores := List (String × ℚ)

/-- `scores[k]` read (0 for an absent key, as `defaultdict(float)`). -/
def sgetD (s : Scores) (k : String) : ℚ := (alistGet s k).getD 0

/-- Python `k in scores`. -/
def smem (s : Scores) (k : String) : Bool := s.any (fun p => p.1 == k)

/-- The in-place update of the entry for `k` by `scores[k] += v`. -/
def updAdd (k : String) (v : ℚ) (q : String × ℚ) : String × ℚ :=
  if q.1 == k then (q.1, q.2 + v) else q

/-- `scores[k] += v` on a `defaultdict(float)`: update in place, or append
a fresh key at the end. -/
def sadd (s : Scores) (k : String) (v : ℚ) : Scores :=
  if smem s k then s.map (updAdd k v) else s ++ [(k, v)]

/-- The in-place update of the entry for `k` by `scores[k] -= v`. -/
def updSub (k : String) (v : ℚ) (q : String × ℚ) : String × ℚ :=
  if q.1 == k then (q.1, q.2 - v) else q

/-- `scores[k] -= v` for a key already present (no insertion). -/
def ssub (s : Scores) (k : String) (v : ℚ) : Scores :=
  s.map (updSub k v)

/-- A dict mapping a transaction to its list of matched keywords/concepts. -/
abbrev MatchMap := List (String × List String)

/-- Python `m.get(k, [])`. -/
def mGet (m : MatchMap) (k : String) : List String := (alistGet m k).getD []

/-- Python `k in m` (dict-key membership). -/
def mMem (m : MatchMap) (k : String) : Bool := m.any (fun p => p.1 == k)

/-- `m[k].append(v)` where a missing key starts from the empty list. -/
def mAdd (m : MatchMap) (k : String) (v : String) : MatchMap :=
  if m.any (fun p => p.1 == k) then
    m.map (fun p => if p.1 == k then (p.1, p.2 ++ [v]) else p)
  else m ++ [(k, [v])]

/-- `m[k].add(v)` on a dict of insertion-ordered sets
(`defaultdict(set)`). -/
def setAdd (m : MatchMap) (k : String) (v : String) : MatchMap :=
  if m.any (fun p => p.1 == k) then
    m.map (fun p => if p.1 == k then (p.1, if p.2.contains v then p.2 else p.2 ++ [v]) else p)
  else m ++ [(k, [v])]

/-! ### Configuration data model (`posting_engine.json` shape) -/

/-- One element of `CONFIG["document_types"]`. -/
structure DocType where
  transaction_key : String
  description : String := ""
  keywords : List String := []
  module_id : Nat := 0
  deriving DecidableEq

/-- One posting rule (an element of a `rules` list in
`CONFIG["posting_rules"]`); optional fields carry the `.get` defaults used
by the source. -/
structure Rule where
  role_key : String
  side : String
  account_source_type : String := "FIXED"
  fixed_account_code : String := ""
  priority : Nat
  description : String := ""
  deriving DecidableEq

/-- One element of `CONFIG["posting_groups"]`. -/
structure PostingGroup where
  code : String
  posting_group_type : String
  deriving DecidableEq

/-- The configuration blob loaded from `posting_engine.json`.  The source
turns the lists into dicts keyed by `transaction_key` / `je_doc_type` /
`code`; keys are assumed distinct, matching the dict comprehensions. -/
structure Config where
  document_types : List DocType := []
  posting_rules : List (String × List Rule) := []
  gl_mapping : List (String × List (String × String)) := []
  posting_groups : List PostingGroup := []
  deriving DecidableEq

/-- `POSTING_RULES.get(tx, [])`. -/
def rulesOf (cfg : Config) (tx : String) : List Rule :=
  (alistGet cfg.posting_rules tx).getD []

/-- `POSTING_GROUPS.get(code)`. -/
def pgFind (cfg : Config) (code : String) : Option PostingGroup :=
  cfg.posting_groups.find? (fun g => g.code == code)

/-- `GL_MAPPING.get(grp, {}).get(role)`. -/
def glFind (cfg : Config) (grp role : String) : Option String :=
  (alistGet cfg.gl_mapping grp).bind (fun m => alistGet m role)

/-- `GL_MAPPING.get(grp, {}).get(role, "")`. -/
def glGetD (cfg : Config) (grp role : String) : String := (glFind cfg grp role).getD ""

/-! ### Fixed tables transcribed from `rag_service.py` -/

/-- `TRANSACTION_NAMES` of `rag_service.py`. -/
def TRANSACTION_NAMES : List (String × String) :=
  [("DO_SALE", "Phiếu xuất kho bán hàng"),
   ("SALES_INVOICE", "Hóa đơn phải thu"),
   ("CASH_IN", "Phiếu thu tiền"),
   ("GRN_PURCHASE", "Phiếu nhập kho mua hàng"),
   ("PURCHASE_INVOICE", "Hóa đơn phải chi"),
   ("CASH_OUT", "Phiếu chi tiền")]

/-- `SYNONYMS` of `rag_service.py` (query-expansion table). -/
def SYNONYMS : List (String × List String) :=
  [("xuất kho", ["xuất hàng", "giao hàng", "bán hàng", "ship hàng", "delivery"]),
   ("bán", ["bán hàng", "bán ra", "tiêu thụ"]),
   ("giao", ["giao hàng", "giao cho khách", "ship"]),
   ("khách hàng", ["khách", "customer", "KH"]),
   ("nhập kho", ["nhập hàng", "nhận hàng", "hàng về", "receive"]),
   ("mua", ["mua hàng", "mua vào", "purchase"]),
   ("nhà cung cấp", ["NCC", "supplier", "vendor", "nhà cc"]),
   ("hóa đơn", ["hoá đơn", "HĐ", "invoice", "bill"]),
   ("phải thu", ["công nợ thu", "AR", "receivable"]),
   ("phải trả", ["công nợ trả", "AP", "payable"]),
   ("phải chi", ["phải trả", "công nợ chi", "AP"]),
   ("thu tiền", ["nhận tiền", "tiền về", "cash in", "receipt"]),
   ("chi tiền", ["trả tiền", "thanh toán", "cash out", "payment"]),
   ("tiền mặt", ["cash", "TM"]),
   ("chuyển khoản", ["CK", "bank transfer", "tiền gửi"]),
   ("thuế", ["VAT", "GTGT", "tax"]),
   ("thuế đầu ra", ["VAT out", "output tax"]),
   ("thuế đầu vào", ["VAT in", "input tax"]),
   ("hạch toán", ["định khoản", "ghi sổ", "bút toán", "journal entry"]),
   ("tài khoản", ["TK", "account", "acc"])]

/-- `NEGATIVE_KEYWORDS` of `rag_service.py`. -/
def NEGATIVE_KEYWORDS : List (String × List String) :=
  [("DO_SALE", ["hóa đơn", "hoá đơn", "invoice", "thu tiền", "nhận tiền", "thanh toán"]),
   ("SALES_INVOICE", ["xuất kho", "giao hàng", "thu tiền", "nhận tiền", "tiền về"]),
   ("CASH_IN", ["xuất kho", "hóa đơn", "hoá đơn", "giao hàng"]),
   ("GRN_PURCHASE", ["hóa đơn", "hoá đơn", "invoice", "chi tiền", "trả tiền", "thanh toán"]),
   ("PURCHASE_INVOICE", ["nhập kho", "hàng về", "chi tiền", "trả tiền"]),
   ("CASH_OUT", ["nhập kho", "hóa đơn", "hoá đơn", "hàng về"])]

/-- `NEGATIVE_KEYWORDS.get(tx, [])` view used in statements. -/
def negKeywordsOf (tx : String) : List String := (alistGet NEGATIVE_KEYWORDS tx).getD []

/-- One entry of `DISAMBIGUATION_RULES`; `then_tx` is the Python key
`"then"` (a Lean keyword). -/
structure DisRule where
  if_contains : List String
  and_not_contains : List String
  then_tx : String
  boost : ℚ
  deriving DecidableEq

/-- `DISAMBIGUATION_RULES` of `rag_service.py`, in declaration order. -/
def DISAMBIGUATION_RULES : List DisRule :=
  [⟨["xuất kho", "giao hàng"], ["hóa đơn", "thu tiền"], "DO_SALE", 5⟩,
   ⟨["hóa đơn", "phải thu"], ["xuất kho", "thu tiền", "nhập", "mua"], "SALES_INVOICE", 5⟩,
   ⟨["thu tiền", "khách trả", "khách thanh toán"], ["xuất kho", "hóa đơn"], "CASH_IN", 5⟩,
   ⟨["nhập kho", "hàng về", "nhận hàng"], ["hóa đơn", "chi tiền"], "GRN_PURCHASE", 5⟩,
   ⟨["hóa đơn", "phải trả", "phải chi"], ["nhập kho", "chi tiền", "xuất", "bán"],
     "PURCHASE_INVOICE", 5⟩,
   ⟨["chi tiền", "trả tiền", "thanh toán ncc", "thanh toán nhà cung cấp"],
     ["nhập kho", "hóa đơn"], "CASH_OUT", 5⟩]

/-- `CONCEPTS` of `rag_service.py`. -/
def CONCEPTS : List (String × List String) :=
  [("DO_SALE",
    ["xuất kho bán", "phiếu xuất kho", "giao hàng cho khách",
     "giảm tồn kho", "kết chuyển giá vốn", "phiếu giao hàng",
     "xuất hàng đi bán", "hàng xuất bán", "delivery order",
     "xuất kho", "xuất hàng", "giao hàng", "giá vốn", "phiếu xuất"]),
   ("SALES_INVOICE",
    ["hóa đơn bán hàng", "hóa đơn đầu ra", "hóa đơn phải thu",
     "xuất hóa đơn cho khách", "lập hóa đơn bán", "công nợ phải thu",
     "thuế đầu ra", "VAT đầu ra", "hóa đơn GTGT bán ra",
     "AR invoice", "ghi nợ khách hàng",
     "hóa đơn bán", "xuất hóa đơn", "lập hóa đơn", "phải thu khách"]),
   ("CASH_IN",
    ["thu tiền khách hàng", "khách hàng trả tiền", "phiếu thu tiền",
     "thu hồi công nợ", "nhận thanh toán từ khách", "thu nợ khách",
     "khách thanh toán", "cash receipt", "tiền về từ khách",
     "thu tiền", "phiếu thu", "tiền về", "khách trả"]),
   ("GRN_PURCHASE",
    ["nhập kho mua", "phiếu nhập kho", "nhận hàng từ NCC",
     "tăng tồn kho", "hàng về kho", "nhập hàng mua",
     "hàng nhập kho", "goods receipt", "GRN",
     "nhập kho", "nhập hàng", "hàng về", "phiếu nhập", "nhận hàng"]),
   ("PURCHASE_INVOICE",
    ["hóa đơn mua hàng", "hóa đơn đầu vào", "hóa đơn phải chi",
     "nhận hóa đơn từ NCC", "hóa đơn nhà cung cấp", "công nợ phải trả",
     "thuế đầu vào", "VAT đầu vào", "hóa đơn GTGT mua vào",
     "AP invoice", "ghi nợ nhà cung cấp",
     "hóa đơn mua", "nhận hóa đơn", "phải trả NCC", "nợ NCC"]),
   ("CASH_OUT",
    ["chi tiền cho NCC", "trả tiền nhà cung cấp", "phiếu chi tiền",
     "thanh toán công nợ NCC", "trả nợ nhà cung cấp", "chi trả NCC",
     "thanh toán cho NCC", "cash payment", "tiền ra cho NCC",
     "chi tiền", "phiếu chi", "trả tiền", "thanh toán NCC"])]

/-- `CONCEPTS.get(tx, [])`. -/
def conceptsOf (tx : String) : List String := (alistGet CONCEPTS tx).getD []

/-- The four concept-domain lists of `MiniRAGGraph._add_concept_relations`. -/
def CONCEPT_DOMAINS : List (List String) :=
  [["xuất kho", "bán hàng", "giao hàng", "doanh thu"],
   ["nhập kho", "mua hàng", "nhận hàng", "hàng về"],
   ["công nợ phải thu", "công nợ phải trả", "khách hàng nợ", "nợ NCC"],
   ["thu tiền", "chi tiền", "tiền về", "tiền ra"]]

/-- The `followup_indicators` list of
`ConversationContext.is_followup_question`. -/
def FOLLOWUP_INDICATORS : List String :=
  ["còn", "thế còn", "vậy còn", "còn gì", "còn nữa",
   "thế", "vậy", "sao", "thế nào",
   "nó", "cái đó", "cái này", "nghiệp vụ đó", "nghiệp vụ này",
   "tiếp", "tiếp theo", "bước tiếp",
   "thuế", "chiết khấu",
   "ví dụ", "cho ví dụ",
   "giải thích", "giải thích thêm", "chi tiết hơn"]

/-! ### MiniRAGGraph (`rag_service.py`, class `MiniRAGGraph`) -/

/-- One directed edge of the heterogeneous `networkx.DiGraph`; `weight` is
`none` when the `weight` attribute is absent (only RELATED edges carry
one).  The `role`/`description` attributes of DEBIT/CREDIT edges are not
tracked: no modelled code path reads them. -/
structure GEdge where
  src : String
  tgt : String
  edge_type : String
  weight : Option ℚ := none
  deriving DecidableEq

/-- Nodes in insertion order plus edges in insertion order, with at most one
edge per `(src, tgt)` pair, as in `networkx.DiGraph`. -/
structure KGraph where
  nodes : List String := []
  edges : List GEdge := []
  deriving DecidableEq

/-- `graph.add_node` (attributes are not tracked: no claim reads them). -/
def addNodeG (g : KGraph) (n : String) : KGraph :=
  if g.nodes.contains n then g else { g with nodes := g.nodes ++ [n] }

/-- `graph.add_edge`: endpoints are added as nodes when missing; re-adding
an existing `(src, tgt)` pair replaces its attributes in place. -/
def addEdgeG (g : KGraph) (e : GEdge) : KGraph :=
  let g := addNodeG (addNodeG g e.src) e.tgt
  if g.edges.any (fun x => x.src == e.src && x.tgt == e.tgt) then
    { g with edges := g.edges.map (fun x => if x.src == e.src && x.tgt == e.tgt then e else x) }
  else { g with edges := g.edges ++ [e] }

/-- `MiniRAGGraph.get_neighbors(n, edge_type)`: out-edges of `n` with the
given type, in insertion order. -/
def outEdges (g : KGraph) (n et : String) : List GEdge :=
  g.edges.filter (fun e => e.src == n && e.edge_type == et)

/-- `graph.in_edges(n, data=True)`. -/
def inEdgesG (g : KGraph) (n : String) : List GEdge :=
  g.edges.filter (fun e => e.tgt == n)

/-- `MiniRAGGraph.keyword_to_tx`: lowercased keyword → set of transactions
(`defaultdict(set)` built while iterating `DOCUMENT_TYPES`). -/
def keywordToTx (cfg : Config) : MatchMap :=
  cfg.document_types.foldl (fun m doc =>
    doc.keywords.foldl (fun m kw => setAdd m (lowerStr kw) doc.transaction_key) m) []

/-- `MiniRAGGraph.concept_to_tx`: lowercased concept → set of
transactions, from the fixed `CONCEPTS` table restricted to configured
transactions. -/
def conceptToTx (cfg : Config) : MatchMap :=
  cfg.document_types.foldl (fun m doc =>
    (conceptsOf doc.transaction_key).foldl
      (fun m c => setAdd m (lowerStr c) doc.transaction_key) m) []

/-- `MiniRAGGraph._connect_concepts(concepts)`: pairwise bidirectional
RELATED edges (weight 0.5) between concepts whose nodes both exist. -/
def connectConcepts : KGraph → List String → KGraph
  | g, [] => g
  | g, c1 :: rest =>
    connectConcepts
      (rest.foldl (fun g c2 =>
        let n1 := "CONCEPT:" ++ c1
        let n2 := "CONCEPT:" ++ c2
        if g.nodes.contains n1 && g.nodes.contains n2 then
          addEdgeG (addEdgeG g ⟨n1, n2, "RELATED", some (1/2)⟩) ⟨n2, n1, "RELATED", some (1/2)⟩
        else g) g) rest

/-- `MiniRAGGraph._build_graph`: transaction, keyword, concept and fixed
account nodes with their edges, then the RELATED concept relations.  The
source performs no validation and contains no `raise`: the function is
total. -/
def buildGraph (cfg : Config) : KGraph :=
  let g : KGraph := {}
  let g := cfg.document_types.foldl (fun g doc =>
    let tx := doc.transaction_key
    let g := addNodeG g ("TX:" ++ tx)
    let g := doc.keywords.foldl (fun g kw =>
      addEdgeG g ⟨"TX:" ++ tx, "KW:" ++ kw, "HAS_KEYWORD", none⟩) g
    (conceptsOf tx).foldl (fun g c =>
      addEdgeG g ⟨"TX:" ++ tx, "CONCEPT:" ++ c, "HAS_CONCEPT", none⟩) g) g
  let g := cfg.posting_rules.foldl (fun g pr =>
    pr.2.foldl (fun g r =>
      if r.account_source_type == "FIXED" && !(r.fixed_account_code == "") then
        addEdgeG g ⟨"TX:" ++ pr.1, "ACC:" ++ r.fixed_account_code,
          (if r.side == "DEBIT" then "DEBIT" else "CREDIT"), none⟩
      else g) g) g
  CONCEPT_DOMAINS.foldl connectConcepts g

/-! ### MiniRAGRetriever (`rag_service.py`) -/

/-- `np.dot` on the modelled embedding vectors. -/
def dotQ (a b : List ℚ) : ℚ := (a.zip b).foldl (fun s p => s + p.1 * p.2) 0

/-- Python `round(x, 4)` (nearest multiple of `1/10000`, ties to even). -/
def round4 (x : ℚ) : ℚ :=
  let y := x * 10000
  let f : ℤ := ⌊y⌋
  let r := y - f
  (if r < 1/2 then (f : ℚ) else if 1/2 < r then (f : ℚ) + 1
   else if f % 2 = 0 then (f : ℚ) else (f : ℚ) + 1) / 10000

/-- `MiniRAGRetriever.expand_query`. -/
def expand_query (q : String) : String :=
  let ql := lowerStr q
  let ts := SYNONYMS.foldl (fun ts kv =>
    let ts := if kv.2.any (fun syn => strHas (lowerStr syn) ql) then ts ++ [kv.1] else ts
    if strHas kv.1 ql then ts ++ kv.2 else ts) [ql]
  joinSpace ts

/-- The keyword / concept matching loop of `MiniRAGRetriever.retrieve`
(steps 1, 2 and 2.5): for every table entry whose key occurs in `text`, add
`w` to each of its transactions and append the key (suffixed with `tag`) to
that transaction's matched list. -/
def matchStep (table : MatchMap) (text : String) (w : ℚ) (tag : String)
    (scores : Scores) (matched : MatchMap) : Scores × MatchMap :=
  table.foldl (fun p kv =>
    if strHas kv.1 text then
      kv.2.foldl (fun p tx => (sadd p.1 tx w, mAdd p.2 tx (kv.1 ++ tag))) p
    else p) (scores, matched)

/-- The `penalties` dict built by
`MiniRAGRetriever.apply_negative_penalty`: 2.0 per negative keyword of a
transaction occurring in the lowercased query. -/
def computePenalties (ql : String) : Scores :=
  NEGATIVE_KEYWORDS.foldl (fun pens kv =>
    kv.2.foldl (fun pens kw => if strHas kw ql then sadd pens kv.1 2 else pens) pens) []

/-- The application loop of `apply_negative_penalty`: each penalty is
subtracted only when its transaction is already a key of `scores`. -/
def applyPens (pens scores : Scores) : Scores :=
  pens.foldl (fun s p => if smem s p.1 then ssub s p.1 p.2 else s) scores

/-- `MiniRAGRetriever.apply_negative_penalty` (returns the penalties dict
and the updated scores). -/
def apply_negative_penalty (ql : String) (scores : Scores) : Scores × Scores :=
  (computePenalties ql, applyPens (computePenalties ql) scores)

/-- The match test of one disambiguation rule: some `if_contains` keyword
occurs and no `and_not_contains` keyword occurs. -/
def disMatches (ql : String) (r : DisRule) : Bool :=
  (r.if_contains.any (fun kw => strHas kw ql)) && !(r.and_not_contains.any (fun kw => strHas kw ql))

/-- `MiniRAGRetriever.apply_disambiguation`: first matching rule boosts its
target and stops (the `break`). -/
def apply_disambiguation (ql : String) (scores : Scores) : Option DisRule × Scores :=
  applyDisambiguationAux ql scores DISAMBIGUATION_RULES
where
  /-- The loop over `DISAMBIGUATION_RULES` with early exit. -/
  applyDisambiguationAux (ql : String) (scores : Scores) :
      List DisRule → Option DisRule × Scores
    | [] => (none, scores)
    | r :: rest =>
      if disMatches ql r then (some r, sadd scores r.then_tx r.boost)
      else applyDisambiguationAux ql scores rest

/-- Step 5 of `MiniRAGRetriever.retrieve`: graph traversal over
HAS_CONCEPT → RELATED → (incoming HAS_CONCEPT) adding
`0.5 * rel_data.get("weight", 0.5)` to each related transaction; the
`traversed` set is shared across the whole loop. -/
def traversalStep (g : KGraph) (scores : Scores) : Scores :=
  ((scores.map (fun p => p.1)).foldl (fun (st : Scores × List String) tx =>
    if sgetD st.1 tx > 0 then
      (outEdges g ("TX:" ++ tx) "HAS_CONCEPT").foldl (fun st e1 =>
        (outEdges g e1.tgt "RELATED").foldl (fun st e2 =>
          if st.2.contains e2.tgt then st
          else
            let st := (st.1, st.2 ++ [e2.tgt])
            (inEdgesG g e2.tgt).foldl (fun st e3 =>
              if strStarts "TX:" e3.src && e3.edge_type == "HAS_CONCEPT" then
                let rtx := stripTx e3.src
                if rtx == tx then st
                else (sadd st.1 rtx ((1/2) * (e2.weight.getD (1/2))), st.2)
              else st) st) st) st
    else st) (scores, [])).1

/-- The text embedded for a transaction in `MiniRAGRetriever.__init__`. -/
def txText (doc : DocType) : String :=
  doc.transaction_key ++ " " ++ (alistGet TRANSACTION_NAMES doc.transaction_key).getD ""
    ++ " " ++ doc.description ++ " " ++ joinSpace doc.keywords

/-- `self.tx_embeddings` (transaction key → precomputed embedding), in
`DOCUMENT_TYPES` order. -/
def txEmbList (cfg : Config) (encode : String → List ℚ) : List (String × List ℚ) :=
  cfg.document_types.map (fun d => (d.transaction_key, encode (txText d)))

/-- The internal state of `MiniRAGRetriever.retrieve` after step 6. -/
structure RInt where
  scores : Scores
  mkws : MatchMap
  mcons : MatchMap
  disamb : Option DisRule
  penalties : Scores
  deriving DecidableEq

/-- Steps 1–6 of `MiniRAGRetriever.retrieve`, parameterised by the
precomputed transaction embeddings and the query embedding. -/
def retrieveWith (cfg : Config) (embs : List (String × List ℚ)) (qe : List ℚ)
    (q : String) : RInt :=
  let ql := lowerStr q
  let p1 := matchStep (keywordToTx cfg) ql 3 "" [] []
  let p2 := matchStep (conceptToTx cfg) ql 2 "" p1.1 []
  let p3 :=
    if p1.2.isEmpty && p2.2.isEmpty then
      matchStep (keywordToTx cfg) (expand_query q) 2 " (expanded)" p2.1 p1.2
    else (p2.1, p1.2)
  let p4 := apply_negative_penalty ql p3.1
  let p5 := apply_disambiguation ql p4.2
  let s6 := traversalStep (buildGraph cfg) p5.2
  let s7 := embs.foldl (fun s te =>
    sadd s te.1 (dotQ qe te.2 *
      (if !(mMem p3.2 te.1) && !(mMem p2.2 te.1) then 3/2 else 1/2))) s6
  ⟨s7, p3.2, p2.2, p5.1, p4.1⟩

/-- The dict returned by `MiniRAGRetriever.retrieve` (the `debug` dict is
not modelled apart from the fields the method computation reads). -/
structure RetrieveResult where
  transaction : String
  score : ℚ
  method : String
  matched_keywords : List String
  matched_concepts : List String
  all_scores : Scores
  deriving DecidableEq

/-- Python `max(l, key=f)`: first maximum under iteration order; `none` on
the empty list (`ValueError`). -/
def argmaxBy {α : Type} (f : α → ℚ) : List α → Option α
  | [] => none
  | a :: t => some (t.foldl (fun b x => if f x > f b then x else b) a)

/-- `max(scores.keys(), key=lambda k: scores[k])`. -/
def argmaxScores (s : Scores) : Option String :=
  (argmaxBy (fun p => p.2) s).map (fun p => p.1)

/-- The relation sorting `all_scores` by descending value. -/
def scoreGE (a b : String × ℚ) : Prop := b.2 ≤ a.2

instance : DecidableRel scoreGE := fun a b => inferInstanceAs (Decidable (b.2 ≤ a.2))

/-- Step 7 of `MiniRAGRetriever.retrieve`: selection and method report.
`none` models the `ValueError` of `max()` on an empty sequence (possible
only when no document type is configured). -/
def selectResult (embs : List (String × List ℚ)) (qe : List ℚ) (ri : RInt) :
    Option RetrieveResult :=
  let allScores := (List.insertionSort scoreGE ri.scores).map (fun p => (p.1, round4 p.2))
  if ri.scores.isEmpty then
    (argmaxBy (fun te => dotQ qe te.2) embs).map (fun te =>
      { transaction := te.1, score := round4 (sgetD ri.scores te.1),
        method := "embedding_only",
        matched_keywords := mGet ri.mkws te.1, matched_concepts := mGet ri.mcons te.1,
        all_scores := allScores })
  else
    (argmaxScores ri.scores).map (fun best =>
      { transaction := best, score := round4 (sgetD ri.scores best),
        method :=
          if !((ri.disamb.map (fun r => r.then_tx)).getD "").isEmpty then "disambiguation"
          else if !(mGet ri.mkws best).isEmpty then "keyword"
          else if !(mGet ri.mcons best).isEmpty then "concept"
          else "graph_traversal",
        matched_keywords := mGet ri.mkws best, matched_concepts := mGet ri.mcons best,
        all_scores := allScores })

/-- The internal retrieval state for a question (steps 1–6). -/
def retrieveInternal (cfg : Config) (encode : String → List ℚ) (q : String) : RInt :=
  retrieveWith cfg (txEmbList cfg encode) (encode q) q

/-- The final per-transaction score map of `MiniRAGRetriever.retrieve`. -/
def retrieveScores (cfg : Config) (encode : String → List ℚ) (q : String) : Scores :=
  (retrieveInternal cfg encode q).scores

/-- `MiniRAGRetriever.retrieve` (`rag_service.py`). -/
def retrieve (cfg : Config) (encode : String → List ℚ) (q : String) :
    Option RetrieveResult :=
  selectResult (txEmbList cfg encode) (encode q) (retrieveInternal cfg encode q)

/-! ### ConversationContext (`rag_service.py`) -/

/-- One element of `ConversationContext.history`. -/
structure HEntry where
  question : String
  transaction : String
  transaction_name : String := ""
  deriving DecidableEq

/-- `len(question) < 30` (Python `len` counts code points). -/
def isShortQ (q : String) : Bool := q.length < 30

/-- `any(ind in question_lower for ind in followup_indicators)`. -/
def hasIndicator (q : String) : Bool :=
  FOLLOWUP_INDICATORS.any (fun ind => strHas ind (lowerStr q))

/-- `ConversationContext.is_followup_question`.  An empty history returns
`False` before the retriever is consulted; otherwise the result is
`(is_short and has_indicator) or (has_indicator and no_direct_match)` where
`no_direct_match` reads the matched keyword/concept lists of the retrieval
result for the question.  `none` models an exception escaping the inner
`retrieve` call. -/
def is_followup_question (cfg : Config) (encode : String → List ℚ)
    (history : List HEntry) (q : String) : Option Bool :=
  if history.isEmpty then some false
  else
    (retrieve cfg encode q).map (fun res =>
      (isShortQ q && hasIndicator q) ||
      (hasIndicator q && (res.matched_keywords.isEmpty && res.matched_concepts.isEmpty)))

/-! ### PostingEngineResolver (`rag_service.py`) -/

/-- The entry dict appended by `PostingEngineResolver.resolve` in
`rag_service.py`.  `is_lookup` models `entry.get("is_lookup")`: this
variant never writes the key, so the field is always `none` here; the
`rag_posting_engine.py` variant below always writes it. -/
structure EntryRS where
  side : String
  account : String
  priority : Nat
  description : String
  is_lookup : Option Bool := none
  deriving DecidableEq

/-- The account computed by the LOOKUP branch of both resolvers:
`POSTING_GROUPS.get(item_group, {}).get("posting_group_type") ==
"ITEM_GROUP"` selects the item-group key, otherwise the partner-group
key. -/
def codeLookupAccount (cfg : Config) (item_group partner_group role : String) : String :=
  if (match pgFind cfg item_group with
      | some g => g.posting_group_type == "ITEM_GROUP"
      | none => false) then
    glGetD cfg item_group role
  else glGetD cfg partner_group role

/-- Modelled from the spec: the LOOKUP account resolution as worded in
§4.4 of the specification — "look up `item_group` in the PostingGroup
table; if its type is ITEM_GROUP, resolve the account via the item-group GL
mapping keyed by (item_group, role_key); otherwise resolve via the
partner-group GL mapping keyed by (partner_group, role_key)", a missing
entry resolving to the empty account code. -/
def specLookupAccount (cfg : Config) (item_group partner_group role : String) : String :=
  match (pgFind cfg item_group).map (fun g => g.posting_group_type) with
  | some t => if t = "ITEM_GROUP" then glGetD cfg item_group role else glGetD cfg partner_group role
  | none => glGetD cfg partner_group role

/-- The loop body of `PostingEngineResolver.resolve` in `rag_service.py`;
`none` is the `ValueError` raised on an invalid `account_source_type`. -/
def entryOfRS (cfg : Config) (item_group partner_group : String) (r : Rule) :
    Option EntryRS :=
  if r.account_source_type == "FIXED" then
    some ⟨r.side, r.fixed_account_code, r.priority, r.description, none⟩
  else if r.account_source_type == "LOOKUP" then
    some ⟨r.side, codeLookupAccount cfg item_group partner_group r.role_key,
      r.priority, r.description, none⟩
  else none

/-- Sequencing of a fallible loop body over a list: the first failure
aborts the whole call (the Python exception discards the partial list). -/
def optionMapList {α β : Type} (f : α → Option β) : List α → Option (List β)
  | [] => some []
  | a :: l =>
    match f a, optionMapList f l with
    | some b, some bs => some (b :: bs)
    | _, _ => none

/-- The ascending-priority order used by `sorted(rules, key=lambda x:
x["priority"])`; `List.insertionSort` with this relation is stable, like
Python's sort. -/
def ruleLE (a b : Rule) : Prop := a.priority ≤ b.priority

instance : DecidableRel ruleLE := fun a b => Nat.decLe a.priority b.priority

instance : IsTotal Rule ruleLE := ⟨fun a b => Nat.le_total a.priority b.priority⟩

instance : IsTrans Rule ruleLE := ⟨fun _ _ _ h1 h2 => Nat.le_trans h1 h2⟩

/-- `PostingEngineResolver.resolve` of `rag_service.py`. -/
def resolveRS (cfg : Config) (tx item_group partner_group : String) :
    Option (List EntryRS) :=
  optionMapList (entryOfRS cfg item_group partner_group)
    (List.insertionSort ruleLE (rulesOf cfg tx))

/-! ### rag_posting_engine.py: fallback retriever and resolver -/

/-- `TRANSACTION_NAMES` of `rag_posting_engine.py`: derived from each
document type's description (`desc.split(" - ")[0]` when the separator
occurs, else the whole description). -/
def peName (desc : String) : String :=
  if strHas " - " desc then ⟨takeBefore (" - ".data) desc.data⟩ else desc

/-- `TRANSACTION_NAMES.get(tx, '')` of `rag_posting_engine.py`. -/
def peTxName (cfg : Config) (tx : String) : String :=
  ((cfg.document_types.find? (fun d => d.transaction_key == tx)).map
    (fun d => peName d.description)).getD ""

/-- The text embedded per transaction in the `rag_posting_engine.py`
retriever's constructor. -/
def txTextPE (cfg : Config) (doc : DocType) : String :=
  doc.transaction_key ++ " " ++ peTxName cfg doc.transaction_key ++ " " ++ doc.description

/-- `self.tx_embeddings` of the `rag_posting_engine.py` retriever. -/
def txEmbListPE (cfg : Config) (encode : String → List ℚ) : List (String × List ℚ) :=
  cfg.document_types.map (fun d => (d.transaction_key, encode (txTextPE cfg d)))

/-- The keyword pass of `MiniRAGRetriever._fallback_retrieve`: scores
(+3.0 per keyword per transaction) and the flat `matched_keywords` list. -/
def fbKeywordPass (cfg : Config) (q : String) : Scores × List String :=
  (keywordToTx cfg).foldl (fun p kv =>
    if strHas kv.1 (lowerStr q) then
      ((kv.2.foldl (fun s tx => sadd s tx 3) p.1), p.2 ++ [kv.1])
    else p) ([], [])

/-- The score map of `_fallback_retrieve` after the embedding fallback
(used only when no keyword matched). -/
def fbScores (cfg : Config) (encode : String → List ℚ) (q : String) : Scores :=
  let p := fbKeywordPass cfg q
  if p.2.isEmpty then
    (txEmbListPE cfg encode).foldl (fun s te => sadd s te.1 (dotQ (encode q) te.2)) p.1
  else p.1

/-- The dict returned by the `rag_posting_engine.py` retriever (its
fallback result carries no `matched_concepts` key; `debug` is the final
score dict). -/
structure FBResult where
  transaction : String
  score : ℚ
  matched_keywords : List String
  method : String
  debug : Scores
  deriving DecidableEq

/-- `MiniRAGRetriever._fallback_retrieve`: keyword matching, an embedding
pass only when no keyword matched, and the hardcoded `"DO_SALE"` default
when the score dict is empty. -/
def fallback_retrieve (cfg : Config) (encode : String → List ℚ) (q : String) : FBResult :=
  let mkws := (fbKeywordPass cfg q).2
  let s := fbScores cfg encode q
  match argmaxScores s with
  | some best => ⟨best, sgetD s best, mkws, "FALLBACK", s⟩
  | none => ⟨"DO_SALE", 0, mkws, "FALLBACK", s⟩

/-- `MiniRAGRetriever.retrieve` of `rag_posting_engine.py`.  `slm` is the
outcome of `_classify_with_slm`: `some t` is the SLM's parsed transaction
field, `none` is a raised/failed call; a value outside the configured
document types is discarded exactly as in the source. -/
def retrievePE (slm : Option String) (cfg : Config) (encode : String → List ℚ)
    (q : String) : FBResult :=
  match slm.bind (fun t =>
    if cfg.document_types.any (fun d => d.transaction_key == t) then some t else none) with
  | some tx => ⟨tx, 1, [], "SLM", []⟩
  | none => fallback_retrieve cfg encode q

/-- The entry dict appended by `PostingEngineResolver.resolve` in
`rag_posting_engine.py` (this variant always writes `is_lookup`). -/
structure EntryPE where
  side : String
  account : String
  priority : Nat
  description : String
  is_lookup : Bool
  deriving DecidableEq

/-- The loop body of the `rag_posting_engine.py` resolver: no `raise`; an
unknown `account_source_type` leaves the account empty. -/
def peEntryOf (cfg : Config) (item_group partner_group : String) (r : Rule) : EntryPE :=
  let acc :=
    if r.account_source_type == "FIXED" then r.fixed_account_code
    else if r.account_source_type == "LOOKUP" then
      codeLookupAccount cfg item_group partner_group r.role_key
    else ""
  ⟨r.side, acc, r.priority, r.description, r.account_source_type == "LOOKUP"⟩

/-- `PostingEngineResolver.resolve` of `rag_posting_engine.py`. -/
def resolvePE (cfg : Config) (tx item_group partner_group : String) : List EntryPE :=
  (List.insertionSort ruleLE (rulesOf cfg tx)).map (peEntryOf cfg item_group partner_group)

/-! ### Helper lemmas about the dictionary operations -/

theorem sgetD_map_updAdd_self (s : Scores) (k : String) (v : ℚ) :
    sgetD (s.map (updAdd k v)) k = if smem s k then sgetD s k + v else 0 := by
  induction s with
  | nil => simp [sgetD, alistGet, smem]
  | cons p t ih =>
    by_cases hp : (p.1 == k) = true
    · simp [sgetD, alistGet, smem, List.any_cons, List.find?, updAdd, hp]
    · have hp' : (p.1 == k) = false := by simpa using hp
      have h1 : updAdd k v p = p := by simp [updAdd, hp']
      rw [List.map_cons, h1]
      simp only [sgetD, alistGet, smem, List.any_cons, List.find?, hp',
        Bool.false_or] at ih ⊢
      exact ih

theorem sgetD_map_updAdd_other (s : Scores) (k : String) (v : ℚ) (k' : String)
    (h : k' ≠ k) :
    sgetD (s.map (updAdd k v)) k' = sgetD s k' := by
  induction s with
  | nil => rfl
  | cons p t ih =>
    by_cases hp : (p.1 == k) = true
    · have hp1 : p.1 = k := by simpa using hp
      have hne : ¬ (p.1 = k') := fun hc => h ((hc ▸ hp1 : k' = k))
      have hpk' : (p.1 == k') = false := by simpa using hne
      have h1 : updAdd k v p = (p.1, p.2 + v) := by simp [updAdd, hp]
      rw [List.map_cons, h1]
      simp only [sgetD, alistGet, List.find?, hpk'] at ih ⊢
      exact ih
    · have hp' : (p.1 == k) = false := by simpa using hp
      have h1 : updAdd k v p = p := by simp [updAdd, hp']
      rw [List.map_cons, h1]
      by_cases hpk' : (p.1 == k') = true
      · simp [sgetD, alistGet, List.find?, hpk']
      · have hpk'' : (p.1 == k') = false := by simpa using hpk'
        simp only [sgetD, alistGet, List.find?, hpk''] at ih ⊢
        exact ih

theorem sgetD_of_not_smem (s : Scores) (k : String) (h : smem s k = false) :
    sgetD s k = 0 := by
  induction s with
  | nil => rfl
  | cons p t ih =>
    simp only [smem, List.any_cons, Bool.or_eq_false_iff] at h
    simp only [sgetD, alistGet, List.find?, h.1]
    exact ih (by simpa [smem] using h.2)

theorem sgetD_append_single_self (s : Scores) (k : String) (v : ℚ) :
    sgetD (s ++ [(k, v)]) k = if smem s k then sgetD s k else v := by
  induction s with
  | nil => simp [sgetD, alistGet, smem, List.find?]
  | cons p t ih =>
    by_cases hp : (p.1 == k) = true
    · simp [sgetD, alistGet, smem, List.any_cons, List.find?, hp]
    · have hp' : (p.1 == k) = false := by simpa using hp
      rw [List.cons_append]
      simp only [sgetD, alistGet, smem, List.any_cons, List.find?, hp',
        Bool.false_or] at ih ⊢
      exact ih

theorem sgetD_append_single_other (s : Scores) (k : String) (v : ℚ) (k' : String)
    (h : k' ≠ k) :
    sgetD (s ++ [(k, v)]) k' = sgetD s k' := by
  induction s with
  | nil =>
    have : (k == k') = false := by simpa using fun hc : k = k' => h hc.symm
    simp [sgetD, alistGet, List.find?, this]
  | cons p t ih =>
    by_cases hp : (p.1 == k') = true
    · simp [sgetD, alistGet, List.find?, hp]
    · have hp' : (p.1 == k') = false := by simpa using hp
      rw [List.cons_append]
      simp only [sgetD, alistGet, List.find?, hp'] at ih ⊢
      exact ih

theorem sgetD_sadd_self (s : Scores) (k : String) (v : ℚ) :
    sgetD (sadd s k v) k = sgetD s k + v := by
  unfold sadd
  by_cases h : smem s k = true
  · rw [if_pos h, sgetD_map_updAdd_self, if_pos h]
  · have h' : smem s k = false := by simpa using h
    rw [if_neg (by simp [h']), sgetD_append_single_self, if_neg (by simp [h']),
      sgetD_of_not_smem s k h']
    ring

theorem sgetD_sadd_other (s : Scores) (k : String) (v : ℚ) (k' : String) (h : k' ≠ k) :
    sgetD (sadd s k v) k' = sgetD s k' := by
  unfold sadd
  by_cases hm : smem s k = true
  · rw [if_pos hm, sgetD_map_updAdd_other s k v k' h]
  · rw [if_neg hm, sgetD_append_single_other s k v k' h]

theorem smem_map_updAdd (s : Scores) (k : String) (v : ℚ) (k' : String) :
    smem (s.map (updAdd k v)) k' = smem s k' := by
  induction s with
  | nil => rfl
  | cons p t ih =>
    have h1 : (updAdd k v p).1 = p.1 := by
      by_cases hp : (p.1 == k) = true <;> simp [updAdd, hp]
    simp only [List.map_cons, smem, List.any_cons, h1] at ih ⊢
    rw [show (t.map (updAdd k v)).any (fun q => q.1 == k') = t.any (fun q => q.1 == k')
      from ih]

theorem smem_sadd (s : Scores) (k : String) (v : ℚ) (k' : String) :
    smem (sadd s k v) k' = (smem s k' || (k' == k)) := by
  unfold sadd
  by_cases hm : smem s k = true
  · rw [if_pos hm, smem_map_updAdd]
    by_cases hk : k' = k
    · subst hk
      simp [hm]
    · simp [hk]
  · rw [if_neg hm]
    simp only [smem, List.any_append, List.any_cons, List.any_nil]
    by_cases hk : k' = k
    · subst hk
      simp
    · have : (k == k') = false := by simpa using fun hc : k = k' => hk hc.symm
      simp [this, hk]

theorem smem_sadd_self (s : Scores) (k : String) (v : ℚ) : smem (sadd s k v) k = true := by
  rw [smem_sadd]
  simp

theorem sgetD_ssub_self (s : Scores) (k : String) (v : ℚ) :
    sgetD (ssub s k v) k = sgetD s k - (if smem s k then v else 0) := by
  unfold ssub
  induction s with
  | nil => simp [sgetD, alistGet, smem]
  | cons p t ih =>
    by_cases hp : (p.1 == k) = true
    · simp [sgetD, alistGet, smem, List.any_cons, List.find?, updSub, hp]
    · have hp' : (p.1 == k) = false := by simpa using hp
      have h1 : updSub k v p = p := by simp [updSub, hp']
      rw [List.map_cons, h1]
      simp only [sgetD, alistGet, smem, List.any_cons, List.find?, hp',
        Bool.false_or] at ih ⊢
      exact ih

theorem sgetD_ssub_other (s : Scores) (k : String) (v : ℚ) (k' : String) (h : k' ≠ k) :
    sgetD (ssub s k v) k' = sgetD s k' := by
  unfold ssub
  induction s with
  | nil => rfl
  | cons p t ih =>
    have h1 : (updSub k v p).1 = p.1 := by
      by_cases hp : (p.1 == k) = true <;> simp [updSub, hp]
    by_cases hp' : (p.1 == k') = true
    · have h2 : ((updSub k v p).1 == k') = true := by rw [h1]; exact hp'
      have h3 : updSub k v p = p := by
        have hp1 : p.1 = k' := by simpa using hp'
        have : (p.1 == k) = false := by simpa using fun hc : p.1 = k => h (hp1 ▸ hc)
        simp [updSub, this]
      simp [sgetD, alistGet, List.find?, hp', h3]
    · have hp'' : (p.1 == k') = false := by simpa using hp'
      have h2 : ((updSub k v p).1 == k') = false := by rw [h1]; exact hp''
      rw [List.map_cons]
      simp only [sgetD, alistGet, List.find?, hp'', h2] at ih ⊢
      exact ih

theorem smem_ssub (s : Scores) (k : String) (v : ℚ) (k' : String) :
    smem (ssub s k v) k' = smem s k' := by
  unfold ssub
  induction s with
  | nil => rfl
  | cons p t ih =>
    have h1 : (updSub k v p).1 = p.1 := by
      by_cases hp : (p.1 == k) = true <;> simp [updSub, hp]
    simp only [List.map_cons, smem, List.any_cons, h1] at ih ⊢
    rw [show (t.map (updSub k v)).any (fun q => q.1 == k') = t.any (fun q => q.1 == k')
      from ih]

theorem sadd_ne_nil (s : Scores) (k : String) (v : ℚ) : sadd s k v ≠ [] := by
  unfold sadd
  by_cases h : smem s k = true
  · rw [if_pos h]
    intro hc
    rw [List.map_eq_nil_iff] at hc
    subst hc
    simp [smem] at h
  · rw [if_neg h]
    simp

theorem foldl_sadd_ne_nil {β : Type} (key : β → String) (val : β → ℚ) :
    ∀ (l : List β) (s : Scores), s ≠ [] ∨ l ≠ [] →
      l.foldl (fun s b => sadd s (key b) (val b)) s ≠ [] := by
  intro l
  induction l with
  | nil =>
    intro s h
    simpa using h.resolve_right (by simp)
  | cons b t ih =>
    intro s _
    simpa using ih (sadd s (key b) (val b)) (Or.inl (sadd_ne_nil s (key b) (val b)))

/-! ### Helper lemmas about the resolvers -/

theorem optionMapList_forall₂ {α β : Type} (f : α → Option β) :
    ∀ {l : List α} {es : List β}, optionMapList f l = some es →
      List.Forall₂ (fun a b => f a = some b) l es := by
  intro l
  induction l with
  | nil =>
    intro es h
    simp only [optionMapList, Option.some.injEq] at h
    subst h
    exact List.Forall₂.nil
  | cons a t ih =>
    intro es h
    simp only [optionMapList] at h
    cases hfa : f a with
    | none => rw [hfa] at h; exact absurd h (by simp)
    | some b =>
      rw [hfa] at h
      cases hrec : optionMapList f t with
      | none => rw [hrec] at h; exact absurd h (by simp)
      | some bs =>
        rw [hrec] at h
        simp only [Option.some.injEq] at h
        subst h
        exact List.Forall₂.cons hfa (ih hrec)

theorem forall₂_exists_left {α β : Type} {R : α → β → Prop} :
    ∀ {l : List α} {es : List β}, List.Forall₂ R l es →
      ∀ b ∈ es, ∃ a ∈ l, R a b := by
  intro l es h
  induction h with
  | nil => intro b hb; cases hb
  | cons hR _ ih =>
    intro b hb
    rcases List.mem_cons.mp hb with hb | hb
    · subst hb
      exact ⟨_, List.mem_cons_self _ _, hR⟩
    · obtain ⟨a, ha, hr⟩ := ih b hb
      exact ⟨a, List.mem_cons_of_mem _ ha, hr⟩

theorem forall₂_pairwise_transfer {α β : Type} {R : α → β → Prop}
    {S : α → α → Prop} {T : β → β → Prop}
    (hco : ∀ a b a' b', R a b → R a' b' → S a a' → T b b') :
    ∀ {l : List α} {es : List β}, List.Forall₂ R l es → l.Pairwise S → es.Pairwise T := by
  intro l es h
  induction h with
  | nil => intro _; exact List.Pairwise.nil
  | cons hR htail ih =>
    intro hp
    rcases List.pairwise_cons.mp hp with ⟨hhead, htailP⟩
    refine List.Pairwise.cons ?_ (ih htailP)
    intro b' hb'
    obtain ⟨a', ha', hr'⟩ := forall₂_exists_left htail b' hb'
    exact hco _ _ _ _ hR hr' (hhead a' ha')

theorem entryOfRS_priority (cfg : Config) (ig pg : String) (r : Rule) (e : EntryRS)
    (h : entryOfRS cfg ig pg r = some e) : e.priority = r.priority := by
  unfold entryOfRS at h
  split at h
  · cases h; rfl
  · split at h
    · cases h; rfl
    · cases h

/-- C1: for every posting rule with `account_source_type = LOOKUP`, the
resolver raises nothing and resolves the account exactly as the
specification words it: the mapping table is selected solely from the
posting-group type declared for the `item_group` argument — the item-group
key when that type is `ITEM_GROUP`, the partner-group key otherwise — and a
missing mapping entry yields the empty account code. -/
theorem c1_lookup_resolution (cfg : Config) (ig pg : String) (r : Rule)
    (h : r.account_source_type = "LOOKUP") :
    entryOfRS cfg ig pg r =
      some ⟨r.side, specLookupAccount cfg ig pg r.role_key, r.priority, r.description, none⟩
    ∧ (glFind cfg
        (if (pgFind cfg ig).map (fun g => g.posting_group_type) = some "ITEM_GROUP"
         then ig else pg) r.role_key = none →
        specLookupAccount cfg ig pg r.role_key = "") := by
  have hcode : codeLookupAccount cfg ig pg r.role_key = specLookupAccount cfg ig pg r.role_key := by
    unfold codeLookupAccount specLookupAccount
    cases hg : pgFind cfg ig with
    | none => simp
    | some g =>
      simp only [Option.map_some']
      by_cases ht : g.posting_group_type = "ITEM_GROUP"
      · simp [ht]
      · have : (g.posting_group_type == "ITEM_GROUP") = false := by simpa using ht
        simp [this, ht]
  constructor
  · unfold entryOfRS
    rw [h]
    simp only [show (("LOOKUP" : String) == "FIXED") = false from by decide,
      show (("LOOKUP" : String) == "LOOKUP") = true from by decide]
    simp [hcode]
  · intro hmiss
    unfold specLookupAccount
    cases hg : pgFind cfg ig with
    | none =>
      rw [hg] at hmiss
      simp only [Option.map_none'] at hmiss ⊢
      rw [if_neg (by simp : ¬ ((none : Option String) = some "ITEM_GROUP"))] at hmiss
      simp [glGetD, hmiss]
    | some g =>
      rw [hg] at hmiss
      simp only [Option.map_some'] at hmiss ⊢
      by_cases ht : g.posting_group_type = "ITEM_GROUP"
      · rw [if_pos (by simp [ht])] at hmiss
        simp [ht, glGetD, hmiss]
      · rw [if_neg (by simp [ht])] at hmiss
        simp [ht, glGetD, hmiss]

/-- C2: every entry list produced by `PostingEngineResolver.resolve` is
non-decreasing in the `priority` field. -/
theorem c2_priority_sorted (cfg : Config) (tx ig pg : String) (es : List EntryRS)
    (h : resolveRS cfg tx ig pg = some es) :
    es.Pairwise (fun a b => a.priority ≤ b.priority) := by
  unfold resolveRS at h
  have hf := optionMapList_forall₂ (entryOfRS cfg ig pg) h
  have hs : (List.insertionSort ruleLE (rulesOf cfg tx)).Pairwise ruleLE :=
    List.sorted_insertionSort ruleLE (rulesOf cfg tx)
  refine forall₂_pairwise_transfer ?_ hf hs
  intro a b a' b' hab ha'b' hS
  rw [entryOfRS_priority cfg ig pg a b hab, entryOfRS_priority cfg ig pg a' b' ha'b']
  exact hS

/-- C9 (amended): every entry of the `rag_posting_engine.py` resolver stems
from a posting rule of the transaction and carries `is_lookup = true`
exactly when that rule's `account_source_type` is `LOOKUP`; the
`rag_service.py` resolver's entries carry no `is_lookup` key at all (see
the counterexample). -/
theorem c9_is_lookup_amended (cfg : Config) (tx ig pg : String) (e : EntryPE)
    (he : e ∈ resolvePE cfg tx ig pg) :
    ∃ r ∈ rulesOf cfg tx, e = peEntryOf cfg ig pg r ∧
      (e.is_lookup = true ↔ r.account_source_type = "LOOKUP") := by
  unfold resolvePE at he
  obtain ⟨r, hr, he⟩ := List.mem_map.mp he
  refine ⟨r, (List.perm_insertionSort ruleLE (rulesOf cfg tx)).mem_iff.mp hr, he.symm, ?_⟩
  rw [← he]
  unfold peEntryOf
  simp only []
  exact ⟨fun hb => by simpa using hb, fun hb => by simp [hb]⟩

/-! ### Helper lemmas about graph construction -/

theorem mem_nodes_addNodeG (g : KGraph) (n x : String) (hx : x ∈ g.nodes) :
    x ∈ (addNodeG g n).nodes := by
  unfold addNodeG
  split
  · exact hx
  · exact List.mem_append_left _ hx

theorem mem_nodes_addNodeG_self (g : KGraph) (n : String) : n ∈ (addNodeG g n).nodes := by
  unfold addNodeG
  split
  · rename_i h
    exact List.mem_of_elem_eq_true h
  · exact List.mem_append_right _ (List.mem_singleton.mpr rfl)

theorem mem_nodes_addEdgeG (g : KGraph) (e : GEdge) (x : String) (hx : x ∈ g.nodes) :
    x ∈ (addEdgeG g e).nodes := by
  simp only [addEdgeG]
  split
  · exact mem_nodes_addNodeG _ _ _ (mem_nodes_addNodeG _ _ _ hx)
  · exact mem_nodes_addNodeG _ _ _ (mem_nodes_addNodeG _ _ _ hx)

theorem mem_nodes_addEdgeG_src (g : KGraph) (e : GEdge) : e.src ∈ (addEdgeG g e).nodes := by
  simp only [addEdgeG]
  split
  · exact mem_nodes_addNodeG _ _ _ (mem_nodes_addNodeG_self _ _)
  · exact mem_nodes_addNodeG _ _ _ (mem_nodes_addNodeG_self _ _)

theorem mem_nodes_foldl {β : Type} (step : KGraph → β → KGraph)
    (hstep : ∀ g b x, x ∈ g.nodes → x ∈ (step g b).nodes) :
    ∀ (l : List β) (g : KGraph) (x : String), x ∈ g.nodes → x ∈ (l.foldl step g).nodes := by
  intro l
  induction l with
  | nil => intro g x hx; simpa using hx
  | cons b t ih =>
    intro g x hx
    simpa using ih (step g b) x (hstep g b x hx)

theorem mem_nodes_connectConcepts :
    ∀ (cs : List String) (g : KGraph) (x : String), x ∈ g.nodes →
      x ∈ (connectConcepts g cs).nodes := by
  intro cs
  induction cs with
  | nil => intro g x hx; simpa [connectConcepts] using hx
  | cons c1 rest ih =>
    intro g x hx
    simp only [connectConcepts]
    refine ih _ x ?_
    refine mem_nodes_foldl _ ?_ rest g x hx
    intro g c2 x hx
    split
    · exact mem_nodes_addEdgeG _ _ _ (mem_nodes_addEdgeG _ _ _ hx)
    · exact hx

theorem tx_node_in_rules_fold (t : String) :
    ∀ (rules : List Rule) (g : KGraph) (r : Rule), r ∈ rules →
      r.account_source_type = "FIXED" → r.fixed_account_code ≠ "" →
      ("TX:" ++ t) ∈ (rules.foldl (fun g r =>
        if r.account_source_type == "FIXED" && !(r.fixed_account_code == "") then
          addEdgeG g ⟨"TX:" ++ t, "ACC:" ++ r.fixed_account_code,
            (if r.side == "DEBIT" then "DEBIT" else "CREDIT"), none⟩
        else g) g).nodes := by
  intro rules
  induction rules with
  | nil => intro g r hr; cases hr
  | cons a l ih =>
    intro g r hr h3 h4
    rcases List.mem_cons.mp hr with hr | hr
    · subst hr
      have hcond : (r.account_source_type == "FIXED" && !(r.fixed_account_code == "")) = true := by
        simp [h3, h4]
      simp only [List.foldl_cons, hcond, if_true]
      refine mem_nodes_foldl _ ?_ l _ _ ?_
      · intro g b x hx
        split
        · exact mem_nodes_addEdgeG _ _ _ hx
        · exact hx
      · exact mem_nodes_addEdgeG_src _ _
    · simp only [List.foldl_cons]
      exact ih _ r hr h3 h4

theorem tx_node_in_pr_fold :
    ∀ (prs : List (String × List Rule)) (g : KGraph) (t : String) (rules : List Rule)
      (r : Rule), (t, rules) ∈ prs → r ∈ rules →
      r.account_source_type = "FIXED" → r.fixed_account_code ≠ "" →
      ("TX:" ++ t) ∈ (prs.foldl (fun g pr =>
        pr.2.foldl (fun g r =>
          if r.account_source_type == "FIXED" && !(r.fixed_account_code == "") then
            addEdgeG g ⟨"TX:" ++ pr.1, "ACC:" ++ r.fixed_account_code,
              (if r.side == "DEBIT" then "DEBIT" else "CREDIT"), none⟩
          else g) g) g).nodes := by
  intro prs
  induction prs with
  | nil => intro g t rules r hpr; cases hpr
  | cons a l ih =>
    intro g t rules r hpr hr h3 h4
    rcases List.mem_cons.mp hpr with hpr | hpr
    · have ha1 : a.1 = t := by rw [← hpr]
      have ha2 : a.2 = rules := by rw [← hpr]
      simp only [List.foldl_cons]
      refine mem_nodes_foldl _ ?_ l _ _ ?_
      · intro g b x hx
        refine mem_nodes_foldl _ ?_ b.2 g x hx
        intro g rr x hx
        split
        · exact mem_nodes_addEdgeG _ _ _ hx
        · exact hx
      · rw [ha1, ha2]
        exact tx_node_in_rules_fold t rules g r hr h3 h4
    · simp only [List.foldl_cons]
      exact ih _ t rules r hpr hr h3 h4

/-- C4 (amended): graph construction never fails — `_build_graph` performs no
referential validation, so a posting rule whose `je_doc_type` has no
DocumentTypeDescriptor still completes the build; any of its FIXED rules
with a non-empty account code implicitly creates the undeclared transaction
node through `add_edge`. -/
theorem c4_build_completes (cfg : Config) (t : String) (rules : List Rule) (r : Rule)
    (h1 : (t, rules) ∈ cfg.posting_rules) (h2 : r ∈ rules)
    (h3 : r.account_source_type = "FIXED") (h4 : r.fixed_account_code ≠ "") :
    ("TX:" ++ t) ∈ (buildGraph cfg).nodes := by
  unfold buildGraph
  refine mem_nodes_foldl connectConcepts ?_ CONCEPT_DOMAINS _ _ ?_
  · intro g cs x hx
    exact mem_nodes_connectConcepts cs g x hx
  · exact tx_node_in_pr_fold cfg.posting_rules _ t rules r h1 h2 h3 h4

/-- C5 (amended): a failed SLM call never propagates — retrieval degrades to
the keyword/embedding fallback and reports method `"FALLBACK"`; when the
fallback's score dict is empty (no keyword matched and no document type is
configured) the hardcoded default transaction `"DO_SALE"` is returned
instead of an empty result. -/
theorem c5_fallback_amended (cfg : Config) (encode : String → List ℚ) (q : String) :
    retrievePE none cfg encode q = fallback_retrieve cfg encode q
    ∧ (fallback_retrieve cfg encode q).method = "FALLBACK"
    ∧ (fbScores cfg encode q = [] → (fallback_retrieve cfg encode q).transaction = "DO_SALE") := by
  refine ⟨rfl, ?_, ?_⟩
  · unfold fallback_retrieve
    cases h : argmaxScores (fbScores cfg encode q) <;> simp [h]
  · intro hempty
    unfold fallback_retrieve
    rw [hempty]
    simp [argmaxScores, argmaxBy]

/-- C6 (amended): disambiguation is first-match-wins in declaration order —
the applied rule is the first whose positive keyword set matches and whose
negative set does not, at most one rule's boost is added, and that boost
goes to the matched rule's target transaction.  (The boosted target's final
score need not exceed the scores of unboosted transactions; see the
counterexample.) -/
theorem c6_disambiguation_amended (ql : String) (scores : Scores) :
    apply_disambiguation ql scores =
      (match DISAMBIGUATION_RULES.find? (disMatches ql) with
       | some r => (some r, sadd scores r.then_tx r.boost)
       | none => (none, scores)) := by
  unfold apply_disambiguation
  generalize DISAMBIGUATION_RULES = rs
  induction rs with
  | nil => rfl
  | cons r rest ih =>
    by_cases h : disMatches ql r = true
    · simp [apply_disambiguation.applyDisambiguationAux, List.find?, h]
    · have h' : disMatches ql r = false := by simpa using h
      simp only [apply_disambiguation.applyDisambiguationAux, List.find?, h', if_false]
      exact ih

/-- C3 (amended): with an empty history, follow-up detection returns `false`
without consulting the retriever; with a non-empty history it returns
`true` exactly when the question contains a follow-up indicator AND (it is
short OR the retriever found neither a keyword nor a concept match for the
best transaction) — an OR, not the AND-of-three of the claim. -/
theorem c3_followup_amended (cfg : Config) (encode : String → List ℚ)
    (hist : List HEntry) (q : String) (hne : hist ≠ []) :
    is_followup_question cfg encode [] q = some false
    ∧ is_followup_question cfg encode hist q =
        (retrieve cfg encode q).map (fun res =>
          hasIndicator q && (isShortQ q || (res.matched_keywords.isEmpty
            && res.matched_concepts.isEmpty))) := by
  refine ⟨rfl, ?_⟩
  unfold is_followup_question
  rw [if_neg (by simpa using hne)]
  cases hres : retrieve cfg encode q with
  | none => rfl
  | some res =>
    simp only [Option.map_some']
    congr 1
    cases hs : isShortQ q <;> cases hi : hasIndicator q <;>
      cases hm : res.matched_keywords.isEmpty && res.matched_concepts.isEmpty <;>
        simp [hs, hi, hm]

/-- C8: for a fixed configuration and fixed embedding values — the embedding
of the question itself and of every configured transaction's description
text — `retrieve` is deterministic: it returns identical results (the same
transaction, method, score and match lists), including identical final
score maps, so ties are broken the same way on every call. -/
theorem c8_deterministic (cfg : Config) (e1 e2 : String → List ℚ) (q : String)
    (h1 : e1 q = e2 q)
    (h2 : ∀ d ∈ cfg.document_types, e1 (txText d) = e2 (txText d)) :
    retrieve cfg e1 q = retrieve cfg e2 q
    ∧ retrieveScores cfg e1 q = retrieveScores cfg e2 q := by
  have hemb : txEmbList cfg e1 = txEmbList cfg e2 := by
    unfold txEmbList
    exact List.map_congr_left (fun d hd => by rw [h2 d hd])
  unfold retrieve retrieveScores retrieveInternal
  rw [hemb, h1]
  exact ⟨rfl, rfl⟩

/-- C10: whenever at least one document type is configured, the embedding
step inserts a score entry for every configured transaction, so the score
map is non-empty at selection time, the empty-scores branch is not taken,
and the reported method is one of `"disambiguation"`, `"keyword"`,
`"concept"`, `"graph_traversal"` — never `"embedding_only"`. -/
theorem c10_method_safe (cfg : Config) (encode : String → List ℚ) (q : String)
    (h : cfg.document_types ≠ []) :
    ∃ res, retrieve cfg encode q = some res
      ∧ (res.method = "disambiguation" ∨ res.method = "keyword"
          ∨ res.method = "concept" ∨ res.method = "graph_traversal")
      ∧ res.method ≠ "embedding_only"
      ∧ retrieveScores cfg encode q ≠ [] := by
  have hne : (retrieveInternal cfg encode q).scores ≠ [] := by
    unfold retrieveInternal retrieveWith
    refine foldl_sadd_ne_nil (fun te => te.1)
      (fun te => dotQ (encode q) te.2 * _) (txEmbList cfg encode) _ (Or.inr ?_)
    unfold txEmbList
    simpa using h
  obtain ⟨p0, t0, hcons⟩ := List.exists_cons_of_ne_nil hne
  unfold retrieve selectResult
  rw [if_neg (by simp [hcons])]
  have hmax : ∃ b, argmaxScores (retrieveInternal cfg encode q).scores = some b := by
    rw [hcons]
    exact ⟨_, rfl⟩
  obtain ⟨b, hb⟩ := hmax
  rw [hb]
  refine ⟨_, rfl, ?_, ?_, ?_⟩
  · by_cases hd : (((retrieveInternal cfg encode q).disamb.map
        (fun r => r.then_tx)).getD "").isEmpty = false
    · simp only [hd]
      simp
    · simp only [Bool.not_eq_false] at hd
      by_cases hk : (mGet (retrieveInternal cfg encode q).mkws b).isEmpty = false
      · simp only [hd, hk]
        simp
      · simp only [Bool.not_eq_false] at hk
        by_cases hc : (mGet (retrieveInternal cfg encode q).mcons b).isEmpty = false
        · simp only [hd, hk, hc]
          simp
        · simp only [Bool.not_eq_false] at hc
          simp only [hd, hk, hc]
          simp
  · by_cases hd : (((retrieveInternal cfg encode q).disamb.map
        (fun r => r.then_tx)).getD "").isEmpty = false
    · simp [hd]
    · simp only [Bool.not_eq_false] at hd
      by_cases hk : (mGet (retrieveInternal cfg encode q).mkws b).isEmpty = false
      · simp [hd, hk]
      · simp only [Bool.not_eq_false] at hk
        by_cases hc : (mGet (retrieveInternal cfg encode q).mcons b).isEmpty = false
        · simp [hd, hk, hc]
        · simp only [Bool.not_eq_false] at hc
          simp [hd, hk, hc]
  · exact hne

/-! ### Helper lemmas about the negative-keyword penalty -/

/-- Distinctness of the keys of a score dict (holds for every dict built by
`sadd` from the empty dict). -/
def keysNodup (s : Scores) : Prop := (s.map Prod.fst).Nodup

theorem smem_iff_mem_keys (s : Scores) (k : String) :
    smem s k = true ↔ k ∈ s.map Prod.fst := by
  simp only [smem, List.any_eq_true, List.mem_map, beq_iff_eq]

theorem sgetD_eq_zero_of_not_mem_keys (s : Scores) (k : String)
    (h : k ∉ s.map Prod.fst) : sgetD s k = 0 := by
  refine sgetD_of_not_smem s k ?_
  by_cases hm : smem s k = true
  · exact absurd ((smem_iff_mem_keys s k).mp hm) h
  · simpa using hm

theorem alistGet_eq_none_of_not_mem_keys {α : Type} (l : List (String × α)) (k : String)
    (h : k ∉ l.map Prod.fst) : alistGet l k = none := by
  unfold alistGet
  have : l.find? (fun p => p.1 == k) = none := by
    rw [List.find?_eq_none]
    intro p hp hc
    exact h (List.mem_map.mpr ⟨p, hp, by simpa using hc⟩)
  rw [this]
  rfl

theorem keys_sadd (s : Scores) (k : String) (v : ℚ) :
    (sadd s k v).map Prod.fst =
      if smem s k then s.map Prod.fst else s.map Prod.fst ++ [k] := by
  unfold sadd
  by_cases h : smem s k = true
  · rw [if_pos h, if_pos h, List.map_map]
    exact List.map_congr_left (fun q _ => by
      by_cases hc : (q.1 == k) = true <;> simp [updAdd, hc])
  · rw [if_neg h, if_neg h]
    simp

theorem keysNodup_sadd (s : Scores) (k : String) (v : ℚ) (h : keysNodup s) :
    keysNodup (sadd s k v) := by
  unfold keysNodup
  rw [keys_sadd]
  by_cases hm : smem s k = true
  · rw [if_pos hm]
    exact h
  · rw [if_neg hm]
    have hk : k ∉ s.map Prod.fst := fun hc => hm ((smem_iff_mem_keys s k).mpr hc)
    rw [List.nodup_append]
    refine ⟨h, List.nodup_singleton k, ?_⟩
    intro a ha hak
    rw [List.mem_singleton] at hak
    exact hk (hak ▸ ha)

theorem keysNodup_foldl {β : Type} (step : Scores → β → Scores)
    (hstep : ∀ s b, keysNodup s → keysNodup (step s b)) :
    ∀ (l : List β) (s : Scores), keysNodup s → keysNodup (l.foldl step s) := by
  intro l
  induction l with
  | nil => intro s hs; simpa using hs
  | cons b t ih =>
    intro s hs
    simpa using ih (step s b) (hstep s b hs)

theorem keysNodup_computePenalties (ql : String) : keysNodup (computePenalties ql) := by
  unfold computePenalties
  refine keysNodup_foldl _ ?_ NEGATIVE_KEYWORDS [] (by simp [keysNodup])
  intro s kv hs
  refine keysNodup_foldl _ ?_ kv.2 s hs
  intro s kw hs
  split
  · exact keysNodup_sadd _ _ _ hs
  · exact hs

theorem penalties_inner_spec (ql k : String) :
    ∀ (kws : List String) (pens : Scores) (tx : String),
      sgetD (kws.foldl (fun p kw => if strHas kw ql then sadd p k 2 else p) pens) tx
        = sgetD pens tx + (if tx = k then 2 * (kws.countP (fun kw => strHas kw ql)) else 0) := by
  intro kws
  induction kws with
  | nil =>
    intro pens tx
    split <;> simp
  | cons kw rest ih =>
    intro pens tx
    by_cases hw : strHas kw ql = true
    · simp only [List.foldl_cons]
      rw [if_pos hw, ih (sadd pens k 2) tx]
      by_cases htx : tx = k
      · subst htx
        rw [sgetD_sadd_self]
        simp only [if_pos rfl, List.countP_cons, hw]
        push_cast
        ring
      · rw [sgetD_sadd_other _ _ _ _ htx]
        simp [htx]
    · have hw' : strHas kw ql = false := by simpa using hw
      simp only [List.foldl_cons]
      rw [if_neg hw, ih pens tx]
      simp [List.countP_cons, hw']

theorem penalties_table_spec (ql : String) :
    ∀ (table : List (String × List String)) (pens : Scores) (tx : String),
      (table.map Prod.fst).Nodup →
      sgetD (table.foldl (fun pens kv =>
          kv.2.foldl (fun pens kw => if strHas kw ql then sadd pens kv.1 2 else pens) pens)
        pens) tx
        = sgetD pens tx + 2 * (((alistGet table tx).getD []).countP (fun kw => strHas kw ql)) := by
  intro table
  induction table with
  | nil =>
    intro pens tx _
    simp [alistGet]
  | cons kv rest ih =>
    intro pens tx hnd
    rcases List.nodup_cons.mp hnd with ⟨hk, hrest⟩
    simp only [List.foldl_cons]
    rw [ih _ tx hrest]
    by_cases htx : tx = kv.1
    · subst htx
      rw [penalties_inner_spec ql kv.1 kv.2 pens kv.1]
      have h0 : alistGet rest kv.1 = none := alistGet_eq_none_of_not_mem_keys rest kv.1 hk
      have hhead : alistGet (kv :: rest) kv.1 = some kv.2 := by
        simp [alistGet, List.find?]
      rw [h0, hhead]
      simp
    · rw [penalties_inner_spec ql kv.1 kv.2 pens tx]
      have hhead : alistGet (kv :: rest) tx = alistGet rest tx := by
        have : (kv.1 == tx) = false := by simpa using fun hc : kv.1 = tx => htx hc.symm
        simp [alistGet, List.find?, this]
      rw [hhead]
      simp [htx]

theorem applyPens_spec :
    ∀ (pens s : Scores) (tx : String), keysNodup pens →
      sgetD (applyPens pens s) tx
        = sgetD s tx - (if smem s tx then sgetD pens tx else 0) := by
  intro pens
  induction pens with
  | nil =>
    intro s tx _
    unfold applyPens
    simp only [List.foldl_nil]
    have : sgetD ([] : Scores) tx = 0 := rfl
    rw [this]
    split <;> ring
  | cons kp rest ih =>
    intro s tx hnd
    rw [keysNodup, List.map_cons] at hnd
    rcases List.nodup_cons.mp hnd with ⟨hk, hrest⟩
    unfold applyPens at ih ⊢
    simp only [List.foldl_cons]
    set s' := if smem s kp.1 then ssub s kp.1 kp.2 else s with hs'
    have hmem' : smem s' tx = smem s tx := by
      rw [hs']
      split
      · exact smem_ssub s kp.1 kp.2 tx
      · rfl
    rw [ih s' tx (by exact hrest), hmem']
    by_cases htx : tx = kp.1
    · subst htx
      have hrest0 : sgetD rest kp.1 = 0 := sgetD_eq_zero_of_not_mem_keys rest kp.1 hk
      have hhead : sgetD (kp :: rest) kp.1 = kp.2 := by
        simp [sgetD, alistGet, List.find?]
      rw [hrest0, hhead]
      by_cases hm : smem s kp.1 = true
      · rw [hs', if_pos hm, if_pos hm, if_pos hm, sgetD_ssub_self, if_pos hm]
        ring
      · have hm' : smem s kp.1 = false := by simpa using hm
        rw [hs', if_neg (by simp [hm']), if_neg (by simp [hm']), if_neg (by simp [hm'])]
    · have hs'tx : sgetD s' tx = sgetD s tx := by
        rw [hs']
        split
        · exact sgetD_ssub_other s kp.1 kp.2 tx htx
        · rfl
      have hhead : sgetD (kp :: rest) tx = sgetD rest tx := by
        have : (kp.1 == tx) = false := by simpa using fun hc : kp.1 = tx => htx hc.symm
        simp [sgetD, alistGet, List.find?, this]
      rw [hs'tx, hhead]

/-- C7 (amended): `apply_negative_penalty` subtracts a fixed 2.0 per listed
negative keyword of `T` occurring in the lowercased question from `T`'s
score — but only when `T` is already a key of the score map at the penalty
step; for a transaction absent from the score map the penalty is dropped,
so appending a negative keyword need not strictly decrease `T`'s final
score (see the counterexample). -/
theorem c7_penalty_amended (ql : String) (scores : Scores) (tx : String) :
    sgetD (apply_negative_penalty ql scores).2 tx
      = sgetD scores tx
        - (if smem scores tx then sgetD (computePenalties ql) tx else 0)
    ∧ sgetD (computePenalties ql) tx
      = 2 * ((negKeywordsOf tx).countP (fun kw => strHas kw ql)) := by
  constructor
  · unfold apply_negative_penalty
    exact applyPens_spec (computePenalties ql) scores tx (keysNodup_computePenalties ql)
  · unfold computePenalties negKeywordsOf
    rw [penalties_table_spec ql NEGATIVE_KEYWORDS [] tx (by decide)]
    have : sgetD ([] : Scores) tx = 0 := rfl
    rw [this]
    ring

/-! ### Concrete configurations for witnesses and counterexamples -/

/-- A trivial embedding model (the zero vector for every text). -/
def encode0 : String → List ℚ := fun _ => []

/-- A resolver configuration in the shape of the specification's example
scenario 3: one LOOKUP rule for role `AR_ACCOUNT` at priority 1 and one
FIXED rule at priority 2, with a partner-group GL mapping for `CUSTOMER`. -/
def ruleAR : Rule :=
  { role_key := "AR_ACCOUNT", side := "DEBIT", account_source_type := "LOOKUP", priority := 1 }

/-- The FIXED revenue rule of the resolver configuration. -/
def ruleRev : Rule :=
  { role_key := "REV", side := "CREDIT", fixed_account_code := "511", priority := 2 }

/-- Resolver test configuration (rules listed out of priority order). -/
def cfgResolver : Config :=
  { posting_rules := [("T", [ruleRev, ruleAR])],
    gl_mapping := [("CUSTOMER", [("AR_ACCOUNT", "131")])],
    posting_groups := [{ code := "CUSTOMER", posting_group_type := "PARTNER_GROUP" }] }

/-- A configuration whose posting rules reference the transaction type
`GHOST`, which has no document type descriptor. -/
def ghostRule : Rule :=
  { role_key := "DR", side := "DEBIT", fixed_account_code := "111", priority := 1 }

/-- The dangling-reference configuration for C4. -/
def cfgBad : Config := { posting_rules := [("GHOST", [ghostRule])] }

/-- One document type `FOO` with three keywords, for C6. -/
def cfg6 : Config :=
  { document_types := [{ transaction_key := "FOO", keywords := ["aa", "bb", "cc"] }] }

/-- The C6 question: fires the first disambiguation rule (towards
`DO_SALE`) while `FOO` collects three keyword hits. -/
def q6 : String := "xuất kho aa bb cc"

/-- One document type `DO_SALE` with no keywords, for C7/C8/C10. -/
def cfg7 : Config := { document_types := [{ transaction_key := "DO_SALE" }] }

/-- One document type `FOO` with no keywords, for C3. -/
def cfg1C : Config := { document_types := [{ transaction_key := "FOO" }] }

/-- A single prior conversation entry. -/
def h0 : HEntry := { question := "q1", transaction := "DO_SALE" }

/-- A long (43-character) question containing the follow-up indicator
`ví dụ` and no keyword or concept of any configured transaction. -/
def qLong : String := "bạn hãy cho ví dụ khác đi nhé bạn ơi cảm ơn"

/-- One document type `FOO` for C5, with an embedding model that gives the
query a strictly negative similarity to `FOO`. -/
def cfgF : Config := { document_types := [{ transaction_key := "FOO", description := "desc" }] }

/-- The C5 embedding model: `[1]` for the query `zzz`, `[-1/4]` for every
other text (hence similarity `-1/4`). -/
def encF : String → List ℚ := fun s => if s == "zzz" then [1] else [-(1/4 : ℚ)]

/-- The empty configuration (no document types at all), for the C5
witness. -/
def cfgEmpty : Config := {}

/-! ### Claim theorems: witnesses and counterexamples -/

/-- C1 witness: the theorem applied to the scenario-3 configuration; the
LOOKUP rule resolves through the partner-group mapping to account 131. -/
theorem c1_witness :
    ruleAR.account_source_type = "LOOKUP"
    ∧ specLookupAccount cfgResolver "GOODS" "CUSTOMER" "AR_ACCOUNT" = "131"
    ∧ (entryOfRS cfgResolver "GOODS" "CUSTOMER" ruleAR =
        some ⟨ruleAR.side, specLookupAccount cfgResolver "GOODS" "CUSTOMER" ruleAR.role_key,
          ruleAR.priority, ruleAR.description, none⟩
      ∧ (glFind cfgResolver
          (if (pgFind cfgResolver "GOODS").map (fun g => g.posting_group_type)
              = some "ITEM_GROUP" then "GOODS" else "CUSTOMER") ruleAR.role_key = none →
          specLookupAccount cfgResolver "GOODS" "CUSTOMER" ruleAR.role_key = "")) :=
  ⟨rfl, by decide, c1_lookup_resolution cfgResolver "GOODS" "CUSTOMER" ruleAR rfl⟩

/-- C2 witness: the resolver output for the scenario-3 configuration, whose
rules are listed out of priority order, comes back sorted ascending. -/
theorem c2_witness :
    resolveRS cfgResolver "T" "GOODS" "CUSTOMER" =
      some [⟨"DEBIT", "131", 1, "", none⟩, ⟨"CREDIT", "511", 2, "", none⟩]
    ∧ List.Pairwise (fun a b => a.priority ≤ b.priority)
        [(⟨"DEBIT", "131", 1, "", none⟩ : EntryRS), ⟨"CREDIT", "511", 2, "", none⟩] :=
  ⟨by decide,
   c2_priority_sorted cfgResolver "T" "GOODS" "CUSTOMER"
     [⟨"DEBIT", "131", 1, "", none⟩, ⟨"CREDIT", "511", 2, "", none⟩] (by decide)⟩

set_option maxRecDepth 100000 in
set_option maxHeartbeats 1000000 in
/-- C3 counterexample: a 43-character question (not short) with a follow-up
indicator and no direct match is classified as a follow-up by the code,
while the claim's short-AND-indicator-AND-no-match condition is false. -/
theorem c3_counterexample :
    is_followup_question cfg1C encode0 [h0] qLong = some true
    ∧ isShortQ qLong = false
    ∧ hasIndicator qLong = true
    ∧ (retrieve cfg1C encode0 qLong).map
        (fun r => (r.matched_keywords, r.matched_concepts)) = some ([], []) :=
  ⟨by with_unfolding_all rfl, by decide, by decide, by with_unfolding_all rfl⟩

/-- C3 witness: the amended theorem applied to a non-empty history and the
short indicator question `ví dụ`. -/
theorem c3_witness :
    ([h0] ≠ ([] : List HEntry))
    ∧ (is_followup_question cfg1C encode0 [] "ví dụ" = some false
      ∧ is_followup_question cfg1C encode0 [h0] "ví dụ" =
          (retrieve cfg1C encode0 "ví dụ").map (fun res =>
            hasIndicator "ví dụ" && (isShortQ "ví dụ" || (res.matched_keywords.isEmpty
              && res.matched_concepts.isEmpty)))) :=
  ⟨by decide, c3_followup_amended cfg1C encode0 [h0] "ví dụ" (by decide)⟩

/-- C4 counterexample: building the graph from a configuration whose only
posting rule references the undeclared transaction `GHOST` completes and
returns a concrete graph (with an implicitly created `TX:GHOST` node)
instead of raising a startup error. -/
theorem c4_counterexample :
    buildGraph cfgBad =
      ⟨["TX:GHOST", "ACC:111"], [⟨"TX:GHOST", "ACC:111", "DEBIT", none⟩]⟩
    ∧ cfgBad.document_types = [] :=
  ⟨by decide, rfl⟩

/-- C4 witness: the amended theorem applied to the dangling `GHOST`
configuration. -/
theorem c4_witness :
    ("GHOST", [ghostRule]) ∈ cfgBad.posting_rules
    ∧ ghostRule ∈ [ghostRule]
    ∧ ghostRule.account_source_type = "FIXED"
    ∧ ghostRule.fixed_account_code ≠ ""
    ∧ ("TX:" ++ "GHOST") ∈ (buildGraph cfgBad).nodes :=
  ⟨by decide, by decide, rfl, by decide,
   c4_build_completes cfgBad "GHOST" [ghostRule] ghostRule (by decide) (by decide) rfl
     (by decide)⟩

/-- C5 counterexample: with the SLM failed, no transaction obtains a
positive score (the sole configured transaction `FOO` scores `-1/4`), yet
the retriever returns `FOO` — not any default transaction type; the
hardcoded default `DO_SALE` is used only for an empty score dict. -/
theorem c5_counterexample :
    fbScores cfgF encF "zzz" = [("FOO", -(1/4 : ℚ))]
    ∧ ((-(1/4 : ℚ)) < 0)
    ∧ retrievePE none cfgF encF "zzz" =
        ⟨"FOO", -(1/4 : ℚ), [], "FALLBACK", [("FOO", -(1/4 : ℚ))]⟩
    ∧ ("FOO" : String) ≠ "DO_SALE" :=
  ⟨by with_unfolding_all rfl, of_decide_eq_true (by with_unfolding_all rfl),
   by with_unfolding_all rfl, by decide⟩

/-- C5 witness: the amended theorem applied to the empty configuration,
where the score dict is empty and the hardcoded `DO_SALE` default is
returned with method `FALLBACK`. -/
theorem c5_witness :
    fbScores cfgEmpty encode0 "x" = []
    ∧ (fallback_retrieve cfgEmpty encode0 "x").method = "FALLBACK"
    ∧ (fallback_retrieve cfgEmpty encode0 "x").transaction = "DO_SALE" :=
  ⟨rfl, (c5_fallback_amended cfgEmpty encode0 "x").2.1,
   (c5_fallback_amended cfgEmpty encode0 "x").2.2 rfl⟩

set_option maxRecDepth 100000 in
set_option maxHeartbeats 1000000 in
/-- C6 counterexample: the first disambiguation rule fires on `q6` (positive
keyword present, negatives absent) and boosts `DO_SALE` by 5, yet the
unboosted transaction `FOO` finishes at 9 > 5 — the boosted target does not
exceed every unboosted transaction. -/
theorem c6_counterexample :
    (retrieveInternal cfg6 encode0 q6).disamb =
      some ⟨["xuất kho", "giao hàng"], ["hóa đơn", "thu tiền"], "DO_SALE", 5⟩
    ∧ retrieveScores cfg6 encode0 q6 = [("FOO", 9), ("DO_SALE", 5)]
    ∧ DISAMBIGUATION_RULES.all (fun r => !(r.then_tx == "FOO")) = true
    ∧ ((5 : ℚ) < 9) :=
  ⟨by with_unfolding_all rfl, by with_unfolding_all rfl, by decide,
   of_decide_eq_true (by with_unfolding_all rfl)⟩

set_option maxRecDepth 100000 in
set_option maxHeartbeats 1000000 in
/-- C7 counterexample: `invoice` is a negative keyword for `DO_SALE` absent
from the question `zzz`, yet appending it leaves `DO_SALE`'s final score
unchanged at 0 (the penalty is dropped because `DO_SALE` is not in the
score map at the penalty step) — no strict decrease. -/
theorem c7_counterexample :
    ("invoice" ∈ negKeywordsOf "DO_SALE")
    ∧ strHas "invoice" (lowerStr "zzz") = false
    ∧ retrieveScores cfg7 encode0 "zzz" = [("DO_SALE", 0)]
    ∧ retrieveScores cfg7 encode0 "zzz invoice" = [("DO_SALE", 0)]
    ∧ ¬ (sgetD (retrieveScores cfg7 encode0 "zzz invoice") "DO_SALE"
          < sgetD (retrieveScores cfg7 encode0 "zzz") "DO_SALE") :=
  ⟨by decide, by decide, by with_unfolding_all rfl, by with_unfolding_all rfl,
   of_decide_eq_true (by with_unfolding_all rfl)⟩

/-- C8 witness: the determinism theorem applied twice to the same embedding
model on `cfg7`. -/
theorem c8_witness :
    (encode0 "zzz" = encode0 "zzz")
    ∧ (retrieve cfg7 encode0 "zzz" = retrieve cfg7 encode0 "zzz"
      ∧ retrieveScores cfg7 encode0 "zzz" = retrieveScores cfg7 encode0 "zzz") :=
  ⟨rfl, c8_deterministic cfg7 encode0 encode0 "zzz" rfl (fun _ _ => rfl)⟩

/-- C9 counterexample: the `rag_service.py` resolver, applied to a LOOKUP
rule, emits an entry dict without any `is_lookup` key (modelled as
`is_lookup = none`), refuting the claim that every resolver entry carries
the flag. -/
theorem c9_counterexample :
    ruleAR.account_source_type = "LOOKUP"
    ∧ resolveRS cfgResolver "T" "GOODS" "CUSTOMER" =
        some [⟨"DEBIT", "131", 1, "", none⟩, ⟨"CREDIT", "511", 2, "", none⟩]
    ∧ (⟨"DEBIT", "131", 1, "", none⟩ : EntryRS).is_lookup = none :=
  ⟨rfl, by decide, rfl⟩

/-- C9 witness: the amended theorem applied to the LOOKUP entry produced by
the `rag_posting_engine.py` resolver. -/
theorem c9_witness :
    (⟨"DEBIT", "131", 1, "", true⟩ : EntryPE) ∈ resolvePE cfgResolver "T" "GOODS" "CUSTOMER"
    ∧ (∃ r ∈ rulesOf cfgResolver "T",
        (⟨"DEBIT", "131", 1, "", true⟩ : EntryPE) = peEntryOf cfgResolver "GOODS" "CUSTOMER" r
        ∧ ((⟨"DEBIT", "131", 1, "", true⟩ : EntryPE).is_lookup = true
            ↔ r.account_source_type = "LOOKUP")) :=
  ⟨by decide,
   c9_is_lookup_amended cfgResolver "T" "GOODS" "CUSTOMER" ⟨"DEBIT", "131", 1, "", true⟩
     (by decide)⟩

/-- C10 witness: the safety theorem applied to `cfg7` (one configured
document type). -/
theorem c10_witness :
    (cfg7.document_types ≠ [])
    ∧ (∃ res, retrieve cfg7 encode0 "zzz" = some res
        ∧ (res.method = "disambiguation" ∨ res.method = "keyword"
            ∨ res.method = "concept" ∨ res.method = "graph_traversal")
        ∧ res.method ≠ "embedding_only"
        ∧ retrieveScores cfg7 encode0 "zzz" ≠ []) :=
  ⟨by decide, c10_method_safe cfg7 encode0 "zzz" (by decide)⟩
